import Mathlib

/-!
# SSH-delegated credential acquisition (`lfs/ssh.go`)

A shallow embedding of `sshClearAuthenticateCache`, `sshAuthenticate` and
`sshGetExeAndArgs`.  Go strings and byte buffers are modelled as `String`;
the file system, the child process and the tracer are modelled by explicit
state passing over `World`, with the immutable surroundings in `Env`.
The `path/filepath` functions follow the POSIX build of the Go library
(separator `/`, no volume names).
-/

namespace Lfs

/-! ## Data model -/

/-- Go `error` values met in `ssh.go`, tagged by the library call that produced them:
`*os.PathError` from the file-system calls, the `os/exec` errors of `Start` and `Wait`,
and the `encoding/json` errors of `Unmarshal`.  A nil error is `none : Option GoError`. -/
inductive GoError where
  | pathError (op path msg : String)
  | execError (msg : String)
  | jsonError (msg : String)
  deriving DecidableEq, Repr

/-- Modelled from the spec: the `Endpoint` descriptor, declared outside `ssh.go`.  It carries
an optional SSH user-and-host string (empty means not SSH-reachable), an optional SSH path
and an optional SSH port; only these fields are read by `ssh.go`. -/
structure Endpoint where
  SshUserAndHost : String := ""
  SshPath : String := ""
  SshPort : String := ""
  deriving DecidableEq, Repr

/-- The struct `sshAuthResponse` (ssh.go:15-20).  `Header` is a Go `map[string]string`,
kept as an association list; the nil map is `[]`. -/
structure sshAuthResponse where
  Message : String := ""
  Href : String := ""
  Header : List (String × String) := []
  ExpiresAt : String := ""
  deriving DecidableEq, Repr

/-- The outcome of one child process: the errors of `cmd.Start` and `cmd.Wait` and what the
process wrote to its standard output and standard error. -/
structure Proc where
  startErr : Option GoError := none
  waitErr : Option GoError := none
  stdout : String := ""
  stderr : String := ""
  deriving DecidableEq, Repr

/-- Observable actions of the module, in the order they happen. -/
inductive Effect where
  | readFile (path : String)
  | trace (msg : String)
  | exec (exe : String) (args : List String)
  | mkdirAll (path : String) (perm : Nat)
  | writeFile (path : String) (data : String) (perm : Nat)
  | remove (path : String)
  deriving DecidableEq, Repr

/-- The immutable surroundings of a call: the package globals `LocalGitDir` and `Config`
(declared outside `ssh.go`, taken as parameters), the library functions whose tables are
not part of the program (`json.Unmarshal`, the Unicode folding table used by
`strings.EqualFold`), the behaviour of the remote command, and which cache writes and
removals the operating system refuses. -/
structure Env where
  /-- The package variable `LocalGitDir`. -/
  LocalGitDir : String
  /-- The method `Config.Getenv`. -/
  Getenv : String → String
  /-- The method `Config.Endpoint()`. -/
  ConfigEndpoint : Endpoint
  /-- The call `json.Unmarshal(data, &res)`: the updated `res` and the returned error. -/
  Unmarshal : String → sshAuthResponse → sshAuthResponse × Option GoError
  /-- For two different runes `sr < tr` with `tr` outside ASCII: whether repeated
  `unicode.SimpleFold` from `sr` reaches `tr`. -/
  simpleFoldReaches : Char → Char → Bool
  /-- What running `exe args...` does; the same on every run. -/
  run : String → List String → Proc
  /-- The error of `os.MkdirAll` on a path, `none` when it succeeds. -/
  mkdirAllErr : String → Option GoError
  /-- The error of `ioutil.WriteFile` on a path, `none` when it succeeds. -/
  writeFileErr : String → Option GoError
  /-- The error with which `os.Remove` refuses to delete the file stored at a path (an
  unwritable directory, a read-only file system), `none` when it deletes it. -/
  removeErr : String → Option GoError

/-- The mutable state: the regular files by path, and the log of actions so far.  A file
that is stored can be read; which writes and removals fail is decided by `Env`. -/
structure World where
  files : String → Option String
  effects : List Effect := []

/-! ## Library functions (`path/filepath`, `strings`, `os`, `io/ioutil`, `os/exec`) -/

/-- The predicate `os.IsPathSeparator`. -/
def IsPathSeparator (c : Char) : Bool := c == '/'

/-- The backwards scan of `filepath.Ext` over the reversed path: `acc` is the part already
passed.  Stops at a separator with no extension, at a dot with the dot and what follows. -/
def extAux : List Char → List Char → List Char
  | [], _ => []
  | c :: rest, acc =>
    if IsPathSeparator c then []
    else if c == '.' then c :: acc
    else extAux rest (c :: acc)

/-- The function `filepath.Ext`: the suffix beginning at the final dot in the final element of
the path, empty if there is no dot. -/
def Ext (path : String) : String := ⟨extAux path.data.reverse []⟩

/-- The function `filepath.Base`: the last element of the path, after removing trailing
separators; `.` for the empty path and `/` for a path of separators only. -/
def Base (path : String) : String :=
  if path.data.isEmpty then "."
  else
    let stripped := (path.data.reverse.dropWhile IsPathSeparator).reverse
    let last := (stripped.reverse.takeWhile (fun c => !IsPathSeparator c)).reverse
    if last.isEmpty then "/" else ⟨last⟩

/-- The rune loop of `strings.EqualFold`. -/
def equalFoldRunes (reaches : Char → Char → Bool) : List Char → List Char → Bool
  | [], t => t.isEmpty
  | _ :: _, [] => false
  | sr :: s, tr :: t =>
    if tr == sr then equalFoldRunes reaches s t
    else
      let lo := if tr < sr then tr else sr
      let hi := if tr < sr then sr else tr
      if hi.toNat < 128 then
        if 'A'.toNat ≤ lo.toNat && lo.toNat ≤ 'Z'.toNat && hi.toNat == lo.toNat + 32 then
          equalFoldRunes reaches s t
        else false
      else if reaches lo hi then equalFoldRunes reaches s t
      else false

/-- The function `strings.EqualFold`: equality under Unicode simple case folding. -/
def EqualFold (env : Env) (s t : String) : Bool :=
  equalFoldRunes env.simpleFoldReaches s.data t.data

/-- Splits a path at every separator; `a//b` has an empty middle element. -/
def splitSep : List Char → List (List Char)
  | [] => [[]]
  | c :: cs =>
    if IsPathSeparator c then [] :: splitSep cs
    else
      match splitSep cs with
      | [] => [[c]]
      | h :: t => (c :: h) :: t

/-- One element of the scan of `filepath.Clean`.  `stack` holds the elements written so far,
last one first.  Empty and `.` elements are dropped; `..` removes the last element when
that is not itself `..`, is dropped at the root, and is kept otherwise. -/
def cleanStep (rooted : Bool) (stack : List (List Char)) (elem : List Char) :
    List (List Char) :=
  if elem = [] then stack
  else if elem = ['.'] then stack
  else if elem = ['.', '.'] then
    match stack with
    | top :: rest =>
      if top ≠ ['.', '.'] then rest
      else if rooted then stack
      else elem :: stack
    | [] => if rooted then [] else [elem]
  else elem :: stack

/-- Writes the kept elements out, separated by `/`. -/
def joinSep : List (List Char) → List Char
  | [] => []
  | [e] => e
  | e :: es => e ++ '/' :: joinSep es

/-- Whether a path starts with a separator. -/
def isRooted (path : List Char) : Bool := (path.head?.map IsPathSeparator).getD false

/-- The path that `filepath.Clean` writes out for a stack of kept elements: the root
separator if the path is rooted, the elements separated by `/`, and `.` when nothing is
left of an unrooted path. -/
def renderStack (rooted : Bool) (stack : List (List Char)) : List Char :=
  if rooted then '/' :: joinSep stack.reverse
  else if stack = [] then ['.']
  else joinSep stack.reverse

/-- The function `filepath.Clean` on the characters of a path. -/
def cleanChars (path : List Char) : List Char :=
  if path = [] then ['.']
  else renderStack (isRooted path) ((splitSep path).foldl (cleanStep (isRooted path)) [])

/-- The function `filepath.Clean`. -/
def Clean (path : String) : String := ⟨cleanChars path.data⟩

/-- The function `filepath.Join`: leading empty elements are skipped, the rest is joined
with the separator and cleaned; no non-empty element gives the empty string. -/
def joinChars : List (List Char) → List Char
  | [] => []
  | e :: es => if e = [] then joinChars es else cleanChars (joinSep (e :: es))

/-- The function `filepath.Join`. -/
def Join (elem : List String) : String := ⟨joinChars (elem.map String.data)⟩

/-- The call `ioutil.ReadFile`: the content and a nil error when a file is stored at the
path, no content and a `*os.PathError` otherwise. -/
def ReadFile (w : World) (path : String) : (String × Option GoError) × World :=
  let w1 : World := { w with effects := w.effects ++ [Effect.readFile path] }
  match w.files path with
  | some data => ((data, none), w1)
  | none => (("", some (GoError.pathError "open" path "no such file or directory")), w1)

/-- The call `os.MkdirAll`.  Directories are not tracked in `World.files`; the call is
logged and its error is the one the surroundings dictate. -/
def MkdirAll (env : Env) (w : World) (path : String) (perm : Nat) : Option GoError × World :=
  (env.mkdirAllErr path, { w with effects := w.effects ++ [Effect.mkdirAll path perm] })

/-- The call `ioutil.WriteFile`: on success the file holds exactly `data`, replacing any
earlier content; on failure the stored files are left as they were. -/
def WriteFile (env : Env) (w : World) (path data : String) (perm : Nat) :
    Option GoError × World :=
  let log := w.effects ++ [Effect.writeFile path data perm]
  match env.writeFileErr path with
  | some e => (some e, { w with effects := log })
  | none => (none, { files := Function.update w.files path (some data), effects := log })

/-- The call `os.Remove`: a `*os.PathError` when no file is stored at the path; otherwise
the file is deleted, unless the operating system refuses, and then it stays as it was. -/
def Remove (env : Env) (w : World) (path : String) : Option GoError × World :=
  let log := w.effects ++ [Effect.remove path]
  match w.files path with
  | some _ =>
    match env.removeErr path with
    | some e => (some e, { w with effects := log })
    | none => (none, { files := Function.update w.files path none, effects := log })
  | none =>
    (some (GoError.pathError "remove" path "no such file or directory"),
      { w with effects := log })

/-- The call `tracerx.Printf` with an already formatted message. -/
def tracerxPrintf (w : World) (msg : String) : World :=
  { w with effects := w.effects ++ [Effect.trace msg] }

/-- The pair `exec.Command(exe, args...)` then `cmd.Start()` / `cmd.Wait()` with both output
streams captured: logs the command and yields what the surroundings dictate. -/
def execCommand (env : Env) (w : World) (exe : String) (args : List String) : Proc × World :=
  (env.run exe args, { w with effects := w.effects ++ [Effect.exec exe args] })

/-! ## The functions of `ssh.go` -/

/-- The function `sshGetExeAndArgs` (ssh.go:100-138): the executable name for ssh and the
base arguments (batch flag, port settings, user and host). -/
def sshGetExeAndArgs (env : Env) (endpoint : Endpoint) : String × List String :=
  if endpoint.SshUserAndHost.length == 0 then ("", [])
  else
    let isPlink := false
    let isTortoise := false
    let ssh := env.Getenv "GIT_SSH"
    match (if ssh == "" then ("ssh", isPlink, isTortoise)
      else
        let basessh := Base ssh
        -- Strip extension for easier comparison
        let ext := Ext basessh
        let basessh : String :=
          if ext.length > 0 then ⟨basessh.data.take (basessh.length - ext.length)⟩
          else basessh
        (ssh, EqualFold env basessh "plink", EqualFold env basessh "tortoiseplink")) with
    | (ssh, isPlink, isTortoise) =>
      let args : List String := []
      let args := if isTortoise then args ++ ["-batch"] else args
      let args :=
        if endpoint.SshPort.length > 0 then
          let args := if isPlink || isTortoise then args ++ ["-P"] else args ++ ["-p"]
          args ++ [endpoint.SshPort]
        else args
      let args := args ++ [endpoint.SshUserAndHost]
      (ssh, args)

/-- The function `sshClearAuthenticateCache` (ssh.go:24-31): removes the cache file of the
configured endpoint for `operation`; the result of `os.Remove` is discarded. -/
def sshClearAuthenticateCache (env : Env) (w : World) (operation : String) : World :=
  let endpoint := env.ConfigEndpoint
  let cacheFileName := "ssh-cache-" ++ endpoint.SshUserAndHost ++ "-" ++ operation
  let cacheFileFullPath := Join [env.LocalGitDir, "lfs", cacheFileName]
  (Remove env w cacheFileFullPath).2

/-- The function `sshAuthenticate` (ssh.go:33-96).  The result is the returned pair
`(res, err)` and the final state.  In the cache-miss block the source writes
`err := cmd.Start()`, which declares a new variable local to that block; it is `errCmd`
here, and the `err` returned at the end is the one assigned by `ioutil.ReadFile`. -/
def sshAuthenticate (env : Env) (w : World) (endpoint : Endpoint) (operation oid : String) :
    (sshAuthResponse × Option GoError) × World :=
  let res : sshAuthResponse := {}
  if endpoint.SshUserAndHost.length == 0 then ((res, none), w)
  else
    -- attempt to read in the cached version instead of going to the ssh server.
    let cacheFileName := "ssh-cache-" ++ endpoint.SshUserAndHost ++ "-" ++ operation
    let cacheFileBasePath := Join [env.LocalGitDir, "lfs"]
    let cacheFileFullPath := Join [cacheFileBasePath, cacheFileName]
    match ReadFile w cacheFileFullPath with
    | ((cache, err), w) =>
      if err == none then
        -- successfully read in cache, now to parse it
        if err != none then
          (({ res with Message := "Failed to load cache file: " ++ cacheFileName }, err), w)
        else
          match env.Unmarshal cache res with
          | (res, err) => ((res, err), w)
      else
        let w := tracerxPrintf w ("ssh: " ++ endpoint.SshUserAndHost ++ " git-lfs-authenticate "
          ++ endpoint.SshPath ++ " " ++ operation ++ " " ++ oid)
        match sshGetExeAndArgs env endpoint with
        | (exe, args) =>
          let args := args ++ ["git-lfs-authenticate", endpoint.SshPath, operation, oid]
          -- Execute command, stdout and stderr saved in separate buffers
          match execCommand env w exe args with
          | (cmd, w) =>
            let errCmd := cmd.startErr
            let errCmd := if errCmd == none then cmd.waitErr else errCmd
            -- Processing result
            match (if errCmd != none then ({ res with Message := cmd.stderr }, errCmd)
              else env.Unmarshal cmd.stdout res) with
            | (res, _) =>
              -- save off the output in the cache, whatever happened
              match MkdirAll env w cacheFileBasePath 0o777 with
              | (_, w) =>
                match WriteFile env w cacheFileFullPath cmd.stdout 0o622 with
                | (_, w) => ((res, err), w)

/-! ## Vocabulary of the statements -/

/-- The cache file that `sshAuthenticate` reads and writes for an endpoint and operation. -/
def cachePath (env : Env) (endpoint : Endpoint) (operation : String) : String :=
  Join [Join [env.LocalGitDir, "lfs"], "ssh-cache-" ++ endpoint.SshUserAndHost ++ "-" ++ operation]

/-- The argument vector of the remote command for a call of `sshAuthenticate`. -/
def commandArgs (env : Env) (endpoint : Endpoint) (operation oid : String) : List String :=
  (sshGetExeAndArgs env endpoint).2 ++
    ["git-lfs-authenticate", endpoint.SshPath, operation, oid]

/-- The message `sshAuthenticate` hands to the tracer on a cache miss. -/
def traceMessage (endpoint : Endpoint) (operation oid : String) : String :=
  "ssh: " ++ endpoint.SshUserAndHost ++ " git-lfs-authenticate " ++ endpoint.SshPath ++ " "
    ++ operation ++ " " ++ oid

/-- The base name of the `GIT_SSH` value with its final extension stripped. -/
def strippedBaseName (gitSsh : String) : String :=
  let b := Base gitSsh
  ⟨b.data.take (b.length - (Ext b).length)⟩

/-- The base arguments as the specification words them: the batch flag for the TortoisePlink
variant, then the port flag (upper case for the Plink and TortoisePlink variants, lower
case otherwise) with the port when a port is given, then the user-and-host. -/
def referenceBaseArgs (isPlink isTortoise : Bool) (endpoint : Endpoint) : List String :=
  (if isTortoise then ["-batch"] else []) ++
    (if endpoint.SshPort = "" then []
      else if isPlink || isTortoise then ["-P", endpoint.SshPort]
      else ["-p", endpoint.SshPort]) ++
    [endpoint.SshUserAndHost]

/-- The outcome of the remote command that a cache miss of `sshAuthenticate` runs. -/
def remoteCommand (env : Env) (endpoint : Endpoint) (operation oid : String) : Proc :=
  env.run (sshGetExeAndArgs env endpoint).1 (commandArgs env endpoint operation oid)

/-- The response a cache miss of `sshAuthenticate` returns: the captured standard error as
`Message` when start or wait failed, the deserialized standard output otherwise. -/
def missResponse (env : Env) (cmd : Proc) : sshAuthResponse :=
  if cmd.startErr = none ∧ cmd.waitErr = none then (env.Unmarshal cmd.stdout {}).1
  else { Message := cmd.stderr }

/-- The state after a cache miss of `sshAuthenticate`. -/
def missWorld (env : Env) (w : World) (endpoint : Endpoint) (operation oid : String) : World :=
  let path := cachePath env endpoint operation
  let cmd := remoteCommand env endpoint operation oid
  { files := match env.writeFileErr path with
      | some _ => w.files
      | none => Function.update w.files path (some cmd.stdout)
    effects := w.effects ++
      [Effect.readFile path,
       Effect.trace (traceMessage endpoint operation oid),
       Effect.exec (sshGetExeAndArgs env endpoint).1 (commandArgs env endpoint operation oid),
       Effect.mkdirAll (Join [env.LocalGitDir, "lfs"]) 0o777,
       Effect.writeFile path cmd.stdout 0o622] }

/-- The stacks that the scan of `filepath.Clean` can build: elements are non-empty, free of
separators and different from `.`; a `..` element only occurs in an unrooted path, on top
of nothing but `..` elements. -/
def StackOk (rooted : Bool) : List (List Char) → Prop
  | [] => True
  | top :: rest =>
    top ≠ [] ∧ (∀ c ∈ top, IsPathSeparator c = false) ∧ top ≠ ['.'] ∧
      (top = ['.', '.'] → rooted = false ∧ ∀ e ∈ rest, e = ['.', '.']) ∧ StackOk rooted rest

/-! ## Concrete scenarios -/

/-- The standard output of the success scenario. -/
def scenarioStdout : String :=
  "\x7b\"href\":\"https://example.com/obj\",\"header\":\x7b\"Authorization\":\"Bearer X\"\x7d,\"expires_at\":\"2024-01-01T00:00:00Z\"\x7d"

/-- What `json.Unmarshal` does on the inputs of the scenarios: the success output fills the
three serialized fields and leaves `Message` alone; the empty output is rejected with
`res` untouched.  Any other input is treated like the empty one; none is used. -/
def scenarioUnmarshal (data : String) (res : sshAuthResponse) :
    sshAuthResponse × Option GoError :=
  if data = scenarioStdout then
    ({ res with
        Href := "https://example.com/obj"
        Header := [("Authorization", "Bearer X")]
        ExpiresAt := "2024-01-01T00:00:00Z" }, none)
  else (res, some (GoError.jsonError "unexpected end of JSON input"))

/-- The folding table restricted to pairs that start at an ASCII rune: `K`, `k` reach the
Kelvin sign and `S`, `s` reach the long s. -/
def asciiFoldReaches (lo hi : Char) : Bool :=
  ((lo == 'K' || lo == 'k') && hi.toNat == 0x212A) ||
    ((lo == 'S' || lo == 's') && hi.toNat == 0x17F)

/-- The endpoint of the scenarios. -/
def scenarioEndpoint : Endpoint :=
  { SshUserAndHost := "git@example.com", SshPath := "repo.git" }

/-- The endpoint of the scenarios with a port. -/
def portEndpoint : Endpoint :=
  { SshUserAndHost := "git@example.com", SshPath := "repo.git", SshPort := "2222" }

/-- Surroundings for the scenarios: `GIT_SSH` has the value `gitSsh`, every command behaves
like `p`, and no cache write or removal is refused. -/
def scenarioEnv (gitSsh : String) (p : Proc) : Env :=
  { LocalGitDir := ".git"
    Getenv := fun key => if key = "GIT_SSH" then gitSsh else ""
    ConfigEndpoint := scenarioEndpoint
    Unmarshal := scenarioUnmarshal
    simpleFoldReaches := asciiFoldReaches
    run := fun _ _ => p
    mkdirAllErr := fun _ => none
    writeFileErr := fun _ => none
    removeErr := fun _ => none }

/-- The scenario surroundings on a file system that refuses every removal. -/
def refusingEnv (p : Proc) : Env :=
  { scenarioEnv "" p with
    removeErr := fun path => some (GoError.pathError "remove" path "permission denied") }

/-- An endpoint whose user-and-host contains the separator of the cache file name. -/
def dashEndpoint : Endpoint := { SshUserAndHost := "a-b", SshPath := "repo.git" }

/-- An endpoint whose cache file for operation `b-c` has the name of the cache file of
`dashEndpoint` for operation `c`. -/
def plainEndpoint : Endpoint := { SshUserAndHost := "a", SshPath := "repo.git" }

/-- The remote command exits 0 and prints the success output. -/
def successProc : Proc := { stdout := scenarioStdout }

/-- The remote command exits 1 and prints `permission denied` on standard error. -/
def failureProc : Proc :=
  { waitErr := some (GoError.execError "exit status 1"), stderr := "permission denied" }

/-- A state with no files and no actions so far. -/
def emptyWorld : World := { files := fun _ => none }

/-- A state whose only file is the cache file of the scenario endpoint for `download`. -/
def cachedWorld (content : String) : World :=
  { files := fun p => if p = ".git/lfs/ssh-cache-git@example.com-download" then some content
      else none }

/-! # Theorems -/

/-! ## Basic facts -/

theorem length_beq_zero_false {s : String} (h : s ≠ "") : (s.length == 0) = false := by
  have : s.length ≠ 0 := by
    intro h0
    apply h
    cases s with
    | mk d =>
      have hd : d = [] := List.length_eq_zero.mp h0
      subst hd
      rfl
  simpa using this

theorem length_pos_of_ne {s : String} (h : s ≠ "") : 0 < s.length := by
  have := length_beq_zero_false h
  simp only [beq_eq_false_iff_ne, ne_eq] at this
  exact Nat.pos_of_ne_zero this

theorem readFile_miss_iff (w : World) (path : String) :
    (ReadFile w path).1.2 ≠ none ↔ w.files path = none := by
  unfold ReadFile
  cases h : w.files path <;> simp

theorem readFile_of_none {w : World} {path : String} (h : w.files path = none) :
    ReadFile w path =
      (("", some (GoError.pathError "open" path "no such file or directory")),
        { w with effects := w.effects ++ [Effect.readFile path] }) := by
  unfold ReadFile
  simp [h]

theorem readFile_of_some {w : World} {path c : String} (h : w.files path = some c) :
    ReadFile w path = ((c, none), { w with effects := w.effects ++ [Effect.readFile path] }) := by
  unfold ReadFile
  simp [h]

/-- The cache-hit path in closed form. -/
theorem sshAuthenticate_hit_eq (env : Env) (w : World) (endpoint : Endpoint)
    (operation oid c : String) (hhost : endpoint.SshUserAndHost ≠ "")
    (hhit : w.files (cachePath env endpoint operation) = some c) :
    sshAuthenticate env w endpoint operation oid =
      (env.Unmarshal c {},
        { w with effects := w.effects ++ [Effect.readFile (cachePath env endpoint operation)] }) := by
  unfold cachePath at hhit
  simp [sshAuthenticate, length_beq_zero_false hhost, readFile_of_some hhit, cachePath]

/-- The cache-miss path in closed form. -/
theorem sshAuthenticate_miss_eq (env : Env) (w : World) (endpoint : Endpoint)
    (operation oid : String) (hhost : endpoint.SshUserAndHost ≠ "")
    (hmiss : w.files (cachePath env endpoint operation) = none) :
    sshAuthenticate env w endpoint operation oid =
      ((missResponse env (remoteCommand env endpoint operation oid),
        some (GoError.pathError "open" (cachePath env endpoint operation)
          "no such file or directory")),
        missWorld env w endpoint operation oid) := by
  unfold cachePath at hmiss
  simp only [sshAuthenticate, length_beq_zero_false hhost, readFile_of_none hmiss, cachePath,
    missWorld, missResponse, remoteCommand, commandArgs, traceMessage, tracerxPrintf,
    execCommand, MkdirAll, WriteFile]
  cases hs : (env.run (sshGetExeAndArgs env endpoint).1
      ((sshGetExeAndArgs env endpoint).2 ++
        ["git-lfs-authenticate", endpoint.SshPath, operation, oid])).startErr <;>
    cases hw : (env.run (sshGetExeAndArgs env endpoint).1
      ((sshGetExeAndArgs env endpoint).2 ++
        ["git-lfs-authenticate", endpoint.SshPath, operation, oid])).waitErr <;>
    cases hf : env.writeFileErr (Join [Join [env.LocalGitDir, "lfs"],
      "ssh-cache-" ++ endpoint.SshUserAndHost ++ "-" ++ operation]) <;>
    simp [hs, hw, hf]

/-! ## The not-applicable path -/

/-- C9: for an endpoint whose SSH user-and-host is empty, `sshAuthenticate` returns the
zero-valued response and a nil error and leaves the state as it was (no cache read, write
or directory creation, no command, nothing logged), and `sshGetExeAndArgs` returns the
empty executable name and no arguments. -/
theorem sshAuthenticate_not_applicable (env : Env) (w : World) (endpoint : Endpoint)
    (operation oid : String) (hhost : endpoint.SshUserAndHost = "") :
    sshAuthenticate env w endpoint operation oid = (({}, none), w) ∧
      sshGetExeAndArgs env endpoint = ("", []) := by
  constructor
  · simp [sshAuthenticate, hhost]
  · simp [sshGetExeAndArgs, hhost]

theorem sshAuthenticate_not_applicable_witness :
    ({ SshPath := "repo.git", SshPort := "22" } : Endpoint).SshUserAndHost = "" ∧
      (sshAuthenticate (scenarioEnv "plink.exe" successProc) (cachedWorld scenarioStdout)
          { SshPath := "repo.git", SshPort := "22" } "download" "abc" =
          (({}, none), cachedWorld scenarioStdout) ∧
        sshGetExeAndArgs (scenarioEnv "plink.exe" successProc)
          { SshPath := "repo.git", SshPort := "22" } = ("", [])) :=
  ⟨rfl, sshAuthenticate_not_applicable (scenarioEnv "plink.exe" successProc)
    (cachedWorld scenarioStdout) { SshPath := "repo.git", SshPort := "22" } "download" "abc" rfl⟩

/-! ## Command selection -/

/-- The stripped extension of the code agrees with `strippedBaseName`. -/
theorem strip_ext_eq (g : String) :
    (if (Ext (Base g)).length > 0 then
      (⟨(Base g).data.take ((Base g).length - (Ext (Base g)).length)⟩ : String)
      else Base g) = strippedBaseName g := by
  simp only [strippedBaseName]
  split
  · rfl
  · rename_i h0
    have h0 : (Ext (Base g)).length = 0 := by omega
    rw [h0]
    show Base g = (⟨List.take ((Base g).data.length - 0) (Base g).data⟩ : String)
    rw [Nat.sub_zero, List.take_length]

/-- The argument list the code builds from the two flags, against the reference. -/
theorem args_eq_reference (p t : Bool) (endpoint : Endpoint) :
    (if endpoint.SshPort.length > 0 then
        (if p || t then (if t then ([] : List String) ++ ["-batch"] else []) ++ ["-P"]
          else (if t then ([] : List String) ++ ["-batch"] else []) ++ ["-p"]) ++
          [endpoint.SshPort]
      else (if t then ([] : List String) ++ ["-batch"] else [])) ++ [endpoint.SshUserAndHost] =
      referenceBaseArgs p t endpoint := by
  unfold referenceBaseArgs
  by_cases hp : endpoint.SshPort = ""
  · have hl : endpoint.SshPort.length = 0 := by rw [hp]; rfl
    cases p <;> cases t <;> simp [hp, hl]
  · have hl : 0 < endpoint.SshPort.length := length_pos_of_ne hp
    cases p <;> cases t <;> simp [hp, hl]

/-- The base arguments of the code against the reference. -/
theorem sshGetExeAndArgs_args_eq (env : Env) (endpoint : Endpoint)
    (hhost : endpoint.SshUserAndHost ≠ "") :
    (sshGetExeAndArgs env endpoint).2 =
      referenceBaseArgs (EqualFold env (strippedBaseName (env.Getenv "GIT_SSH")) "plink")
        (EqualFold env (strippedBaseName (env.Getenv "GIT_SSH")) "tortoiseplink") endpoint := by
  by_cases hg : env.Getenv "GIT_SSH" = ""
  · have h1 : EqualFold env (strippedBaseName (env.Getenv "GIT_SSH")) "plink" = false := by
      rw [hg]; rfl
    have h2 : EqualFold env (strippedBaseName (env.Getenv "GIT_SSH")) "tortoiseplink"
        = false := by
      rw [hg]; rfl
    rw [h1, h2, ← args_eq_reference]
    simp only [sshGetExeAndArgs, length_beq_zero_false hhost, hg]
    simp
  · rw [← args_eq_reference]
    simp only [sshGetExeAndArgs, length_beq_zero_false hhost, beq_iff_eq, hg, strip_ext_eq]
    simp

/-- C5: for an endpoint with a non-empty SSH user-and-host and any value of `GIT_SSH`, with
`b` the base name of `GIT_SSH` with its final extension stripped, the base arguments are
the batch flag when `b` folds to `tortoiseplink`, then the port flag and the port when the
port is non-empty (`-P` when `b` folds to `plink` or `tortoiseplink`, `-p` otherwise), then
the user-and-host.  So the user-and-host is the last element, an empty port leaves only
the batch part before it, and without the TortoisePlink variant no batch flag is put in
front. -/
theorem sshGetExeAndArgs_baseargs (env : Env) (endpoint : Endpoint)
    (hhost : endpoint.SshUserAndHost ≠ "") :
    (sshGetExeAndArgs env endpoint).2 =
        referenceBaseArgs (EqualFold env (strippedBaseName (env.Getenv "GIT_SSH")) "plink")
          (EqualFold env (strippedBaseName (env.Getenv "GIT_SSH")) "tortoiseplink") endpoint ∧
      (sshGetExeAndArgs env endpoint).2.getLast? = some endpoint.SshUserAndHost ∧
      (endpoint.SshPort = "" →
        (sshGetExeAndArgs env endpoint).2 =
          (if EqualFold env (strippedBaseName (env.Getenv "GIT_SSH")) "tortoiseplink"
            then ["-batch"] else []) ++ [endpoint.SshUserAndHost]) ∧
      (EqualFold env (strippedBaseName (env.Getenv "GIT_SSH")) "tortoiseplink" = false →
        (sshGetExeAndArgs env endpoint).2 =
          (if endpoint.SshPort = "" then []
            else if EqualFold env (strippedBaseName (env.Getenv "GIT_SSH")) "plink"
              then ["-P", endpoint.SshPort]
            else ["-p", endpoint.SshPort]) ++ [endpoint.SshUserAndHost]) := by
  have main := sshGetExeAndArgs_args_eq env endpoint hhost
  refine ⟨main, ?_, ?_, ?_⟩
  · rw [main]; simp [referenceBaseArgs]
  · intro hp; rw [main]; simp [referenceBaseArgs, hp]
  · intro ht
    rw [main, ht]
    simp [referenceBaseArgs]

theorem sshGetExeAndArgs_baseargs_witness :
    portEndpoint.SshUserAndHost ≠ "" ∧
      (sshGetExeAndArgs (scenarioEnv "/opt/putty/TortoisePlink.EXE" successProc)
        portEndpoint).2 = ["-batch", "-P", "2222", "git@example.com"] :=
  ⟨by decide,
    (sshGetExeAndArgs_baseargs (scenarioEnv "/opt/putty/TortoisePlink.EXE" successProc)
      portEndpoint (by decide)).1.trans (by decide)⟩

/-! ## The cache-hit path -/

/-- C7: for an endpoint with a non-empty SSH user-and-host, when the cache file for the host
and operation is readable with content `c`, `sshAuthenticate` returns exactly what
deserializing `c` into a fresh response gives (the response with a nil error, or the partly
filled response with the deserialization error), whatever `expires_at` it carries; the only
action is the read of the cache file, so no process runs and no file changes. -/
theorem sshAuthenticate_cache_hit (env : Env) (w : World) (endpoint : Endpoint)
    (operation oid c : String) (hhost : endpoint.SshUserAndHost ≠ "")
    (hhit : (ReadFile w (cachePath env endpoint operation)).1 = (c, none)) :
    (sshAuthenticate env w endpoint operation oid).1 = env.Unmarshal c {} ∧
      (sshAuthenticate env w endpoint operation oid).2.files = w.files ∧
      (sshAuthenticate env w endpoint operation oid).2.effects =
        w.effects ++ [Effect.readFile (cachePath env endpoint operation)] ∧
      ∀ r : sshAuthResponse, env.Unmarshal c {} = (r, none) →
        (sshAuthenticate env w endpoint operation oid).1 = (r, none) := by
  have hfile : w.files (cachePath env endpoint operation) = some c := by
    unfold ReadFile at hhit
    cases h : w.files (cachePath env endpoint operation) with
    | none => simp [h] at hhit
    | some d =>
      simp only [h] at hhit
      have := congrArg (fun x => x.1) hhit
      simpa using this
  rw [sshAuthenticate_hit_eq env w endpoint operation oid c hhost hfile]
  exact ⟨rfl, rfl, rfl, fun r hr => hr⟩

theorem sshAuthenticate_cache_hit_witness :
    scenarioEndpoint.SshUserAndHost ≠ "" ∧
      (ReadFile (cachedWorld scenarioStdout)
        (cachePath (scenarioEnv "" failureProc) scenarioEndpoint "download")).1 =
        (scenarioStdout, none) ∧
      (sshAuthenticate (scenarioEnv "" failureProc) (cachedWorld scenarioStdout)
        scenarioEndpoint "download" "abc").1 =
        ({ Href := "https://example.com/obj", Header := [("Authorization", "Bearer X")],
           ExpiresAt := "2024-01-01T00:00:00Z" }, none) ∧
      (sshAuthenticate (scenarioEnv "" failureProc) (cachedWorld scenarioStdout)
        scenarioEndpoint "download" "abc").2.effects =
        [Effect.readFile ".git/lfs/ssh-cache-git@example.com-download"] :=
  ⟨by decide, rfl,
    (sshAuthenticate_cache_hit (scenarioEnv "" failureProc) (cachedWorld scenarioStdout)
      scenarioEndpoint "download" "abc" scenarioStdout (by decide) rfl).1.trans (by decide),
    (sshAuthenticate_cache_hit (scenarioEnv "" failureProc) (cachedWorld scenarioStdout)
      scenarioEndpoint "download" "abc" scenarioStdout (by decide) rfl).2.2.1.trans rfl⟩

/-! ## The cache-miss path -/

/-- C6: for an endpoint with a non-empty SSH user-and-host, on a cache miss the actions of
`sshAuthenticate` are, in order, the cache read, the trace line, one command, the directory
creation and the cache write.  The executable of the command is the value of `GIT_SSH`
when that is non-empty and `ssh` otherwise; its arguments are the base arguments of
`sshGetExeAndArgs` followed by `git-lfs-authenticate`, the SSH path, the operation and the
object id, with the user-and-host right before `git-lfs-authenticate`. -/
theorem sshAuthenticate_miss_command (env : Env) (w : World) (endpoint : Endpoint)
    (operation oid : String) (hhost : endpoint.SshUserAndHost ≠ "")
    (hmiss : (ReadFile w (cachePath env endpoint operation)).1.2 ≠ none) :
    (sshAuthenticate env w endpoint operation oid).2.effects =
        w.effects ++
          [Effect.readFile (cachePath env endpoint operation),
           Effect.trace (traceMessage endpoint operation oid),
           Effect.exec (if env.Getenv "GIT_SSH" = "" then "ssh" else env.Getenv "GIT_SSH")
             ((sshGetExeAndArgs env endpoint).2 ++
               ["git-lfs-authenticate", endpoint.SshPath, operation, oid]),
           Effect.mkdirAll (Join [env.LocalGitDir, "lfs"]) 0o777,
           Effect.writeFile (cachePath env endpoint operation)
             (remoteCommand env endpoint operation oid).stdout 0o622] ∧
      (sshGetExeAndArgs env endpoint).2 ++
          ["git-lfs-authenticate", endpoint.SshPath, operation, oid] =
        (sshGetExeAndArgs env endpoint).2.dropLast ++
          [endpoint.SshUserAndHost, "git-lfs-authenticate", endpoint.SshPath, operation, oid] := by
  have hfile := (readFile_miss_iff w _).mp hmiss
  rw [sshAuthenticate_miss_eq env w endpoint operation oid hhost hfile]
  have hexe : (sshGetExeAndArgs env endpoint).1 =
      (if env.Getenv "GIT_SSH" = "" then "ssh" else env.Getenv "GIT_SSH") := by
    by_cases hg : env.Getenv "GIT_SSH" = ""
    · simp [sshGetExeAndArgs, length_beq_zero_false hhost, hg]
    · simp [sshGetExeAndArgs, length_beq_zero_false hhost, hg]
  constructor
  · simp only [missWorld, commandArgs, hexe]
  · rw [sshGetExeAndArgs_args_eq env endpoint hhost]
    simp [referenceBaseArgs, List.dropLast_concat]

theorem sshAuthenticate_miss_command_witness :
    portEndpoint.SshUserAndHost ≠ "" ∧
      (ReadFile emptyWorld (cachePath (scenarioEnv "plink" successProc) portEndpoint
        "upload")).1.2 ≠ none ∧
      (sshAuthenticate (scenarioEnv "plink" successProc) emptyWorld portEndpoint "upload"
        "abc").2.effects =
        [Effect.readFile ".git/lfs/ssh-cache-git@example.com-upload",
         Effect.trace "ssh: git@example.com git-lfs-authenticate repo.git upload abc",
         Effect.exec "plink"
           ["-P", "2222", "git@example.com", "git-lfs-authenticate", "repo.git", "upload", "abc"],
         Effect.mkdirAll ".git/lfs" 0o777,
         Effect.writeFile ".git/lfs/ssh-cache-git@example.com-upload" scenarioStdout 0o622] :=
  ⟨by decide, by decide,
    (sshAuthenticate_miss_command (scenarioEnv "plink" successProc) emptyWorld portEndpoint
      "upload" "abc" (by decide) (by decide)).1.trans (by decide)⟩

/-- C8 as stated fails: the keys (`a-b`, `c`) and (`a`, `b-c`) are different but share the
cache file `.git/lfs/ssh-cache-a-b-c`; a cache miss for the first, with the write not
refused, turns the cache entry of the second from absent into the standard output of the
first key's command. -/
theorem sshAuthenticate_miss_changes_colliding_key :
    dashEndpoint.SshUserAndHost ≠ "" ∧
      (dashEndpoint.SshUserAndHost, "c") ≠ (plainEndpoint.SshUserAndHost, "b-c") ∧
      (ReadFile emptyWorld (cachePath (scenarioEnv "" successProc) dashEndpoint "c")).1.2
        ≠ none ∧
      (scenarioEnv "" successProc).writeFileErr
        (cachePath (scenarioEnv "" successProc) dashEndpoint "c") = none ∧
      cachePath (scenarioEnv "" successProc) plainEndpoint "b-c" =
        cachePath (scenarioEnv "" successProc) dashEndpoint "c" ∧
      emptyWorld.files (cachePath (scenarioEnv "" successProc) plainEndpoint "b-c") = none ∧
      (sshAuthenticate (scenarioEnv "" successProc) emptyWorld dashEndpoint "c" "abc").2.files
        (cachePath (scenarioEnv "" successProc) plainEndpoint "b-c") = some scenarioStdout ∧
      (sshAuthenticate (scenarioEnv "" successProc) emptyWorld dashEndpoint "c" "abc").2.files
        (cachePath (scenarioEnv "" successProc) plainEndpoint "b-c") ≠
        emptyWorld.files (cachePath (scenarioEnv "" successProc) plainEndpoint "b-c") := by
  decide

/-- C8, amended: for an endpoint with a non-empty SSH user-and-host, after a cache miss of
`sshAuthenticate` with the cache write not refused, the cache file for the host and
operation holds exactly the captured standard output of the remote command (whether the
command succeeded, failed or printed something that does not deserialize), every other
file is as before, so the cache entry of every key with a different cache file is
unchanged, and the stored files do not depend on what the command wrote to standard
error. -/
theorem sshAuthenticate_miss_stores_stdout (env : Env) (w : World) (endpoint : Endpoint)
    (operation oid : String) (hhost : endpoint.SshUserAndHost ≠ "")
    (hmiss : (ReadFile w (cachePath env endpoint operation)).1.2 ≠ none)
    (hwrite : env.writeFileErr (cachePath env endpoint operation) = none) :
    (sshAuthenticate env w endpoint operation oid).2.files (cachePath env endpoint operation) =
        some (remoteCommand env endpoint operation oid).stdout ∧
      (∀ path, path ≠ cachePath env endpoint operation →
        (sshAuthenticate env w endpoint operation oid).2.files path = w.files path) ∧
      (∀ (other : Endpoint) (otherOperation : String),
        cachePath env other otherOperation ≠ cachePath env endpoint operation →
        (sshAuthenticate env w endpoint operation oid).2.files
          (cachePath env other otherOperation) = w.files (cachePath env other otherOperation)) ∧
      ∀ message : String,
        (sshAuthenticate
          { env with run := fun exe args => { env.run exe args with stderr := message } }
          w endpoint operation oid).2.files =
          (sshAuthenticate env w endpoint operation oid).2.files := by
  have hfile := (readFile_miss_iff w _).mp hmiss
  have hframe : ∀ path, path ≠ cachePath env endpoint operation →
      (sshAuthenticate env w endpoint operation oid).2.files path = w.files path := by
    intro path hne
    rw [sshAuthenticate_miss_eq env w endpoint operation oid hhost hfile]
    simp [missWorld, hwrite, Function.update_noteq hne]
  refine ⟨?_, hframe, fun other otherOperation hne => hframe _ hne, ?_⟩
  · rw [sshAuthenticate_miss_eq env w endpoint operation oid hhost hfile]
    simp [missWorld, hwrite]
  · intro message
    have hfile2 : w.files (cachePath
        { env with run := fun exe args => { env.run exe args with stderr := message } }
        endpoint operation) = none := hfile
    rw [sshAuthenticate_miss_eq env w endpoint operation oid hhost hfile,
      sshAuthenticate_miss_eq _ w endpoint operation oid hhost hfile2]
    rfl

theorem sshAuthenticate_miss_stores_stdout_witness :
    scenarioEndpoint.SshUserAndHost ≠ "" ∧
      (ReadFile (cachedWorld "kept") (cachePath (scenarioEnv "" failureProc) scenarioEndpoint
        "upload")).1.2 ≠ none ∧
      (scenarioEnv "" failureProc).writeFileErr
        (cachePath (scenarioEnv "" failureProc) scenarioEndpoint "upload") = none ∧
      (sshAuthenticate (scenarioEnv "" failureProc) (cachedWorld "kept") scenarioEndpoint
        "upload" "abc").2.files ".git/lfs/ssh-cache-git@example.com-upload" = some "" ∧
      (sshAuthenticate (scenarioEnv "" failureProc) (cachedWorld "kept") scenarioEndpoint
        "upload" "abc").2.files ".git/lfs/ssh-cache-git@example.com-download" = some "kept" :=
  ⟨by decide, by decide, rfl,
    (sshAuthenticate_miss_stores_stdout (scenarioEnv "" failureProc) (cachedWorld "kept")
      scenarioEndpoint "upload" "abc" (by decide) (by decide) rfl).1,
    ((sshAuthenticate_miss_stores_stdout (scenarioEnv "" failureProc) (cachedWorld "kept")
      scenarioEndpoint "upload" "abc" (by decide) (by decide) rfl).2.2.1 scenarioEndpoint
      "download" (by decide)).trans (by decide)⟩

/-- C10: on every cache miss of `sshAuthenticate` (non-empty SSH user-and-host, cache read
failed) the returned error is the error of the failed cache read and is not nil, whatever
the remote command and the deserializer do; so a nil error is returned only for an empty
user-and-host or after a successful cache read. -/
theorem sshAuthenticate_miss_returns_read_error (env : Env) (w : World) (endpoint : Endpoint)
    (operation oid : String) (hhost : endpoint.SshUserAndHost ≠ "")
    (hmiss : (ReadFile w (cachePath env endpoint operation)).1.2 ≠ none) :
    (sshAuthenticate env w endpoint operation oid).1.2 =
        (ReadFile w (cachePath env endpoint operation)).1.2 ∧
      (sshAuthenticate env w endpoint operation oid).1.2 ≠ none ∧
      ∀ (run : String → List String → Proc)
        (unmarshal : String → sshAuthResponse → sshAuthResponse × Option GoError),
        (sshAuthenticate { env with run := run, Unmarshal := unmarshal } w endpoint operation
          oid).1.2 = (ReadFile w (cachePath env endpoint operation)).1.2 := by
  have hfile := (readFile_miss_iff w _).mp hmiss
  refine ⟨?_, ?_, ?_⟩
  · rw [sshAuthenticate_miss_eq env w endpoint operation oid hhost hfile, readFile_of_none hfile]
  · rw [sshAuthenticate_miss_eq env w endpoint operation oid hhost hfile]
    simp
  · intro run unmarshal
    have hfile2 : w.files (cachePath { env with run := run, Unmarshal := unmarshal }
        endpoint operation) = none := hfile
    rw [sshAuthenticate_miss_eq _ w endpoint operation oid hhost hfile2, readFile_of_none hfile]
    rfl

theorem sshAuthenticate_miss_returns_read_error_witness :
    scenarioEndpoint.SshUserAndHost ≠ "" ∧
      (ReadFile emptyWorld (cachePath (scenarioEnv "" successProc) scenarioEndpoint
        "download")).1.2 ≠ none ∧
      (sshAuthenticate (scenarioEnv "" successProc) emptyWorld scenarioEndpoint "download"
        "abc").1.2 =
        some (GoError.pathError "open" ".git/lfs/ssh-cache-git@example.com-download"
          "no such file or directory") :=
  ⟨by decide, by decide,
    (sshAuthenticate_miss_returns_read_error (scenarioEnv "" successProc) emptyWorld
      scenarioEndpoint "download" "abc" (by decide) (by decide)).1.trans (by decide)⟩

/-! ## Where the returned error departs from the stated contract -/

/-- C1, evaluated on the success scenario: the cache read fails, the command starts and
exits successfully and its output deserializes; the response returned is the deserialized
output, but the error returned is the error of the cache read instead of nil. -/
theorem sshAuthenticate_success_scenario :
    (ReadFile emptyWorld (cachePath (scenarioEnv "" successProc) scenarioEndpoint
        "download")).1.2 ≠ none ∧
      (remoteCommand (scenarioEnv "" successProc) scenarioEndpoint "download" "abc").startErr
        = none ∧
      (remoteCommand (scenarioEnv "" successProc) scenarioEndpoint "download" "abc").waitErr
        = none ∧
      (scenarioEnv "" successProc).Unmarshal
        (remoteCommand (scenarioEnv "" successProc) scenarioEndpoint "download" "abc").stdout {}
        = ({ Href := "https://example.com/obj", Header := [("Authorization", "Bearer X")],
             ExpiresAt := "2024-01-01T00:00:00Z" }, none) ∧
      (sshAuthenticate (scenarioEnv "" successProc) emptyWorld scenarioEndpoint "download"
        "abc").1 =
        ({ Href := "https://example.com/obj", Header := [("Authorization", "Bearer X")],
           ExpiresAt := "2024-01-01T00:00:00Z" },
         some (GoError.pathError "open" ".git/lfs/ssh-cache-git@example.com-download"
           "no such file or directory")) ∧
      (sshAuthenticate (scenarioEnv "" successProc) emptyWorld scenarioEndpoint "download"
        "abc").1.2 ≠ none := by
  decide

/-- C2, evaluated on the failure scenario: the cache read fails and the command exits with
status 1 after printing `permission denied` on standard error; the response carries that
text as `Message`, but the error returned is the error of the cache read, not the
execution error of the command. -/
theorem sshAuthenticate_failure_scenario :
    (ReadFile emptyWorld (cachePath (scenarioEnv "" failureProc) scenarioEndpoint
        "download")).1.2 ≠ none ∧
      (remoteCommand (scenarioEnv "" failureProc) scenarioEndpoint "download" "abc").waitErr
        = some (GoError.execError "exit status 1") ∧
      (sshAuthenticate (scenarioEnv "" failureProc) emptyWorld scenarioEndpoint "download"
        "abc").1 =
        ({ Message := "permission denied" },
         some (GoError.pathError "open" ".git/lfs/ssh-cache-git@example.com-download"
           "no such file or directory")) ∧
      (sshAuthenticate (scenarioEnv "" failureProc) emptyWorld scenarioEndpoint "download"
        "abc").1.2 ≠ some (GoError.execError "exit status 1") := by
  decide

/-! ## Two consecutive calls -/

/-- C3 as stated fails: in the failure scenario, starting with no cache entry and with cache
writes succeeding, the second call runs no process, but the first call returns the captured
standard error as `Message` while the second, served from the cached (empty) standard
output, returns an empty `Message`; the two responses differ. -/
theorem sshAuthenticate_second_call_loses_message :
    emptyWorld.files (cachePath (scenarioEnv "" failureProc) scenarioEndpoint "download")
        = none ∧
      (scenarioEnv "" failureProc).writeFileErr
        (cachePath (scenarioEnv "" failureProc) scenarioEndpoint "download") = none ∧
      (sshAuthenticate (scenarioEnv "" failureProc)
        (sshAuthenticate (scenarioEnv "" failureProc) emptyWorld scenarioEndpoint "download"
          "abc").2 scenarioEndpoint "download" "abc").2.effects =
        (sshAuthenticate (scenarioEnv "" failureProc) emptyWorld scenarioEndpoint "download"
          "abc").2.effects ++ [Effect.readFile ".git/lfs/ssh-cache-git@example.com-download"] ∧
      (sshAuthenticate (scenarioEnv "" failureProc) emptyWorld scenarioEndpoint "download"
        "abc").1.1.Message = "permission denied" ∧
      (sshAuthenticate (scenarioEnv "" failureProc)
        (sshAuthenticate (scenarioEnv "" failureProc) emptyWorld scenarioEndpoint "download"
          "abc").2 scenarioEndpoint "download" "abc").1.1.Message = "" ∧
      (sshAuthenticate (scenarioEnv "" failureProc)
        (sshAuthenticate (scenarioEnv "" failureProc) emptyWorld scenarioEndpoint "download"
          "abc").2 scenarioEndpoint "download" "abc").1.1 ≠
        (sshAuthenticate (scenarioEnv "" failureProc) emptyWorld scenarioEndpoint "download"
          "abc").1.1 := by
  decide

/-- C3, amended: for an endpoint with a non-empty SSH user-and-host and every remote
command, starting from a state with no cache entry for the host and operation and with the
cache write not refused, a second consecutive call of `sshAuthenticate` with the same
arguments only reads the cache file (it runs no process and changes no file) and returns
what deserializing the standard output of the first run gives; when the command started
and exited successfully that is the same response, in all fields, as the first call
returned. -/
theorem sshAuthenticate_second_call_same_response (env : Env) (w : World) (endpoint : Endpoint)
    (operation oid : String) (hhost : endpoint.SshUserAndHost ≠ "")
    (hempty : w.files (cachePath env endpoint operation) = none)
    (hwrite : env.writeFileErr (cachePath env endpoint operation) = none) :
    (sshAuthenticate env (sshAuthenticate env w endpoint operation oid).2 endpoint operation
        oid).2.effects =
        (sshAuthenticate env w endpoint operation oid).2.effects ++
          [Effect.readFile (cachePath env endpoint operation)] ∧
      (sshAuthenticate env (sshAuthenticate env w endpoint operation oid).2 endpoint operation
        oid).2.files = (sshAuthenticate env w endpoint operation oid).2.files ∧
      (sshAuthenticate env (sshAuthenticate env w endpoint operation oid).2 endpoint operation
        oid).1 = env.Unmarshal (remoteCommand env endpoint operation oid).stdout {} ∧
      ((remoteCommand env endpoint operation oid).startErr = none ∧
        (remoteCommand env endpoint operation oid).waitErr = none →
        (sshAuthenticate env (sshAuthenticate env w endpoint operation oid).2 endpoint operation
          oid).1.1 = (sshAuthenticate env w endpoint operation oid).1.1) := by
  have hfirst := sshAuthenticate_miss_eq env w endpoint operation oid hhost hempty
  have hstored : (sshAuthenticate env w endpoint operation oid).2.files
      (cachePath env endpoint operation) =
      some (remoteCommand env endpoint operation oid).stdout := by
    rw [hfirst]
    simp [missWorld, hwrite]
  rw [sshAuthenticate_hit_eq env _ endpoint operation oid _ hhost hstored]
  refine ⟨rfl, rfl, rfl, ?_⟩
  intro hok
  rw [hfirst]
  simp [missResponse, hok.1, hok.2]

theorem sshAuthenticate_second_call_same_response_witness :
    scenarioEndpoint.SshUserAndHost ≠ "" ∧
      emptyWorld.files (cachePath (scenarioEnv "" successProc) scenarioEndpoint "download")
        = none ∧
      (scenarioEnv "" successProc).writeFileErr
        (cachePath (scenarioEnv "" successProc) scenarioEndpoint "download") = none ∧
      ((remoteCommand (scenarioEnv "" successProc) scenarioEndpoint "download" "abc").startErr
        = none ∧
        (remoteCommand (scenarioEnv "" successProc) scenarioEndpoint "download" "abc").waitErr
          = none) ∧
      (sshAuthenticate (scenarioEnv "" successProc)
        (sshAuthenticate (scenarioEnv "" successProc) emptyWorld scenarioEndpoint "download"
          "abc").2 scenarioEndpoint "download" "abc").2.effects =
        (sshAuthenticate (scenarioEnv "" successProc) emptyWorld scenarioEndpoint "download"
          "abc").2.effects ++ [Effect.readFile ".git/lfs/ssh-cache-git@example.com-download"] ∧
      (sshAuthenticate (scenarioEnv "" successProc)
        (sshAuthenticate (scenarioEnv "" successProc) emptyWorld scenarioEndpoint "download"
          "abc").2 scenarioEndpoint "download" "abc").1.1 =
        (sshAuthenticate (scenarioEnv "" successProc) emptyWorld scenarioEndpoint "download"
          "abc").1.1 :=
  ⟨by decide, rfl, rfl, ⟨rfl, rfl⟩,
    (sshAuthenticate_second_call_same_response (scenarioEnv "" successProc) emptyWorld
      scenarioEndpoint "download" "abc" (by decide) rfl rfl).1.trans (by decide),
    (sshAuthenticate_second_call_same_response (scenarioEnv "" successProc) emptyWorld
      scenarioEndpoint "download" "abc" (by decide) rfl rfl).2.2.2 ⟨rfl, rfl⟩⟩

/-! ## `filepath.Join` in two steps -/

theorem splitSep_ne_nil (p : List Char) : splitSep p ≠ [] := by
  cases p with
  | nil => simp [splitSep]
  | cons c cs =>
    unfold splitSep
    split
    · simp
    · split <;> simp

theorem splitSep_append (p n : List Char) :
    splitSep (p ++ '/' :: n) = splitSep p ++ splitSep n := by
  induction p with
  | nil => simp [splitSep, IsPathSeparator]
  | cons c cs ih =>
    simp only [List.cons_append, splitSep]
    split
    · simp [ih]
    · have ih2 : splitSep (cs.append ('/' :: n)) = splitSep cs ++ splitSep n := ih
      rw [ih2]
      cases h : splitSep cs with
      | nil => exact absurd h (splitSep_ne_nil cs)
      | cons a t => simp

theorem splitSep_no_sep (p : List Char) :
    ∀ e ∈ splitSep p, ∀ c ∈ e, IsPathSeparator c = false := by
  induction p with
  | nil => simp [splitSep]
  | cons c cs ih =>
    unfold splitSep
    split
    · intro e he
      simp only [List.mem_cons] at he
      rcases he with rfl | he
      · simp
      · exact ih e he
    · rename_i hc
      cases h : splitSep cs with
      | nil => exact absurd h (splitSep_ne_nil cs)
      | cons a t =>
        rw [h] at ih
        intro e he
        simp only [List.mem_cons] at he
        rcases he with rfl | he
        · intro x hx
          simp only [List.mem_cons] at hx
          rcases hx with rfl | hx
          · simpa using hc
          · exact ih a (by simp) x hx
        · exact ih e (by simp [he])

theorem splitSep_of_no_sep (e : List Char) (h : ∀ c ∈ e, IsPathSeparator c = false) :
    splitSep e = [e] := by
  induction e with
  | nil => rfl
  | cons c cs ih =>
    have hc : IsPathSeparator c = false := h c (by simp)
    have hcs := ih (fun x hx => h x (by simp [hx]))
    simp [splitSep, hc, hcs]

theorem splitSep_joinSep (l : List (List Char)) (hne : l ≠ [])
    (h : ∀ e ∈ l, ∀ c ∈ e, IsPathSeparator c = false) : splitSep (joinSep l) = l := by
  induction l with
  | nil => exact absurd rfl hne
  | cons e es ih =>
    cases es with
    | nil => simpa [joinSep] using splitSep_of_no_sep e (h e (by simp))
    | cons e2 es2 =>
      have h1 := splitSep_of_no_sep e (h e (by simp))
      have h2 := ih (by simp) (fun x hx => h x (by simp [hx]))
      simp only [joinSep]
      rw [splitSep_append, h1, h2]
      rfl

theorem stackOk_no_sep {rooted : Bool} {stack : List (List Char)} (h : StackOk rooted stack) :
    ∀ e ∈ stack, ∀ c ∈ e, IsPathSeparator c = false := by
  induction stack with
  | nil => simp
  | cons top rest ih =>
    intro e he
    simp only [List.mem_cons] at he
    rcases he with rfl | he
    · exact h.2.1
    · exact ih h.2.2.2.2 e he

theorem stackOk_cleanStep {rooted : Bool} {stack : List (List Char)} (h : StackOk rooted stack)
    (elem : List Char) (hsep : ∀ c ∈ elem, IsPathSeparator c = false) :
    StackOk rooted (cleanStep rooted stack elem) := by
  unfold cleanStep
  split
  · exact h
  · split
    · exact h
    · rename_i hnil hdot
      split
      · rename_i hdd
        cases stack with
        | nil =>
          cases rooted
          · subst hdd
            simp [StackOk, IsPathSeparator]
          · simp [StackOk]
        | cons top rest =>
          simp only
          split
          · exact h.2.2.2.2
          · rename_i htop
            have htop : top = ['.', '.'] := by simpa using htop
            split
            · exact h
            · rename_i hr
              have hr : rooted = false := by simpa using hr
              refine ⟨hnil, hsep, hdot, fun _ => ⟨hr, ?_⟩, h⟩
              intro e he
              simp only [List.mem_cons] at he
              rcases he with rfl | he
              · exact htop
              · exact (h.2.2.2.1 htop).2 e he
      · rename_i hdd
        exact ⟨hnil, hsep, hdot, fun hx => absurd hx hdd, h⟩

theorem stackOk_foldl {rooted : Bool} (elems : List (List Char))
    (hsep : ∀ e ∈ elems, ∀ c ∈ e, IsPathSeparator c = false) :
    ∀ stack, StackOk rooted stack → StackOk rooted (elems.foldl (cleanStep rooted) stack) := by
  induction elems with
  | nil => intro stack h; exact h
  | cons e es ih =>
    intro stack h
    simp only [List.foldl_cons]
    exact ih (fun x hx => hsep x (by simp [hx])) _
      (stackOk_cleanStep h e (hsep e (by simp)))

theorem cleanStep_push {rooted : Bool} {top : List Char} {rest : List (List Char)}
    (h : StackOk rooted (top :: rest)) : cleanStep rooted rest top = top :: rest := by
  obtain ⟨hnil, _, hdot, hdd, _⟩ := h
  unfold cleanStep
  simp only [hnil, hdot, if_false]
  split
  · rename_i htop
    obtain ⟨hr, hall⟩ := hdd htop
    cases rest with
    | nil => simp [hr, htop]
    | cons t ts =>
      have ht : t = ['.', '.'] := hall t (by simp)
      simp [hr, htop, ht]
  · rfl

theorem foldl_cleanStep_reverse {rooted : Bool} (stack : List (List Char))
    (h : StackOk rooted stack) : stack.reverse.foldl (cleanStep rooted) [] = stack := by
  induction stack with
  | nil => rfl
  | cons top rest ih =>
    rw [List.reverse_cons, List.foldl_append, ih h.2.2.2.2]
    simp only [List.foldl_cons, List.foldl_nil]
    exact cleanStep_push h

theorem cleanChars_eq_render (p : List Char) (hp : p ≠ []) :
    cleanChars p = renderStack (isRooted p) ((splitSep p).foldl (cleanStep (isRooted p)) []) := by
  simp [cleanChars, hp]

theorem stackOk_ne_nil {rooted : Bool} {stack : List (List Char)} (h : StackOk rooted stack) :
    ∀ e ∈ stack, e ≠ [] := by
  induction stack with
  | nil => simp
  | cons top rest ih =>
    intro e he
    simp only [List.mem_cons] at he
    rcases he with rfl | he
    · exact h.1
    · exact ih h.2.2.2.2 e he

theorem joinSep_head (e : List Char) (es : List (List Char)) (he : e ≠ []) :
    (joinSep (e :: es)).head? = e.head? := by
  cases e with
  | nil => exact absurd rfl he
  | cons c cs => cases es <;> simp [joinSep]

theorem joinSep_ne_nil (e : List Char) (es : List (List Char)) (he : e ≠ []) :
    joinSep (e :: es) ≠ [] := by
  cases e with
  | nil => exact absurd rfl he
  | cons c cs => cases es <;> simp [joinSep]

theorem renderStack_ne_nil {rooted : Bool} {stack : List (List Char)}
    (h : StackOk rooted stack) : renderStack rooted stack ≠ [] := by
  unfold renderStack
  split
  · simp
  · split
    · simp
    · rename_i hne
      cases hrev : stack.reverse with
      | nil => exact absurd (List.reverse_eq_nil_iff.mp hrev) hne
      | cons e es =>
        exact joinSep_ne_nil e es (stackOk_ne_nil h e (by
          have : e ∈ stack.reverse := by rw [hrev]; simp
          simpa using this))

theorem isRooted_renderStack {rooted : Bool} {stack : List (List Char)}
    (h : StackOk rooted stack) (n : List Char) :
    isRooted (renderStack rooted stack ++ '/' :: n) = rooted := by
  unfold renderStack
  cases rooted with
  | true => simp [isRooted, IsPathSeparator]
  | false =>
    simp only [Bool.false_eq_true, if_false]
    split
    · simp [isRooted, IsPathSeparator]
    · rename_i hne
      cases hrev : stack.reverse with
      | nil => exact absurd (List.reverse_eq_nil_iff.mp hrev) hne
      | cons e es =>
        have hmem : e ∈ stack := by
          have : e ∈ stack.reverse := by rw [hrev]; simp
          simpa using this
        have he : e ≠ [] := stackOk_ne_nil h e hmem
        have hsep := stackOk_no_sep h e hmem
        have hj := joinSep_head e es he
        cases e with
        | nil => exact absurd rfl he
        | cons c cs =>
          have hc : IsPathSeparator c = false := hsep c (by simp)
          cases hjoin : joinSep ((c :: cs) :: es) with
          | nil => exact absurd hjoin (joinSep_ne_nil _ _ he)
          | cons d ds =>
            rw [hjoin] at hj
            simp only [List.head?_cons, Option.some.injEq] at hj
            subst hj
            simp [isRooted, hc]

theorem foldl_cleanStep_render {rooted : Bool} {stack : List (List Char)}
    (h : StackOk rooted stack) :
    (splitSep (renderStack rooted stack)).foldl (cleanStep rooted) [] = stack := by
  have hrev : ∀ e ∈ stack.reverse, ∀ c ∈ e, IsPathSeparator c = false := by
    intro e he
    exact stackOk_no_sep h e (by simpa using he)
  unfold renderStack
  cases rooted with
  | true =>
    simp only [if_true]
    by_cases hne : stack = []
    · subst hne
      simp [joinSep, splitSep, IsPathSeparator, cleanStep]
    · have hs := splitSep_joinSep stack.reverse (by simpa using hne) hrev
      have hcons : splitSep ('/' :: joinSep stack.reverse) = [] :: splitSep (joinSep stack.reverse) := by
        simp [splitSep, IsPathSeparator]
      rw [hcons, hs, List.foldl_cons]
      have : cleanStep true [] [] = [] := by simp [cleanStep]
      rw [this]
      exact foldl_cleanStep_reverse stack h
  | false =>
    simp only [Bool.false_eq_true, if_false]
    split
    · rename_i hnil
      subst hnil
      simp [splitSep, IsPathSeparator, cleanStep]
    · rename_i hne
      rw [splitSep_joinSep stack.reverse (by simpa using hne) hrev]
      exact foldl_cleanStep_reverse stack h

/-- Cleaning an already cleaned first part changes nothing: the law behind joining a path in
two steps. -/
theorem cleanChars_clean_append (p n : List Char) (hp : p ≠ []) :
    cleanChars (cleanChars p ++ '/' :: n) = cleanChars (p ++ '/' :: n) := by
  have hok : StackOk (isRooted p) ((splitSep p).foldl (cleanStep (isRooted p)) []) :=
    stackOk_foldl (splitSep p) (splitSep_no_sep p) [] trivial
  have hroot : isRooted (p ++ '/' :: n) = isRooted p := by
    cases p with
    | nil => exact absurd rfl hp
    | cons c cs => rfl
  rw [cleanChars_eq_render p hp]
  rw [cleanChars_eq_render _ (by simp), cleanChars_eq_render (p ++ '/' :: n) (by simp)]
  rw [isRooted_renderStack hok, hroot, splitSep_append, splitSep_append, List.foldl_append,
    List.foldl_append, foldl_cleanStep_render hok]

theorem cleanChars_ne_nil (p : List Char) : cleanChars p ≠ [] := by
  by_cases hp : p = []
  · subst hp; simp [cleanChars]
  · rw [cleanChars_eq_render p hp]
    exact renderStack_ne_nil (stackOk_foldl (splitSep p) (splitSep_no_sep p) [] trivial)

/-- Joining `dir`, `lfs` and a non-empty file name in one step or in two gives the same
path. -/
theorem Join_lfs_two_steps (dir name : String) (hname : name ≠ "") :
    Join [Join [dir, "lfs"], name] = Join [dir, "lfs", name] := by
  have hn : name.data ≠ [] := by
    intro h
    apply hname
    cases name with
    | mk d => simp only at h; subst h; rfl
  have hlfs : ("lfs" : String).data = ['l', 'f', 's'] := rfl
  by_cases hd : dir.data = []
  · have h1 : cleanChars ['l', 'f', 's'] = ['l', 'f', 's'] := by decide
    simp only [Join, List.map, joinChars, hd, hlfs, joinSep, h1, hn]
    simp
  · have h2 : cleanChars (dir.data ++ '/' :: ['l', 'f', 's']) ≠ [] := cleanChars_ne_nil _
    simp only [Join, List.map, joinChars, hd, hlfs, joinSep, h2, if_false]
    rw [cleanChars_clean_append _ _ (by simp)]
    simp

theorem cacheFileName_ne_empty (host operation : String) :
    "ssh-cache-" ++ host ++ "-" ++ operation ≠ "" := by
  intro h
  have := congrArg String.length h
  simp only [String.length_append] at this
  have h0 : ("ssh-cache-" : String).length = 10 := by decide
  have h1 : ("" : String).length = 0 := rfl
  omega

/-- The path removed by `sshClearAuthenticateCache` is the path `sshAuthenticate` uses. -/
theorem clear_path_eq_cachePath (env : Env) (endpoint : Endpoint) (operation : String) :
    Join [env.LocalGitDir, "lfs", "ssh-cache-" ++ endpoint.SshUserAndHost ++ "-" ++ operation] =
      cachePath env endpoint operation := by
  unfold cachePath
  exact (Join_lfs_two_steps _ _ (cacheFileName_ne_empty _ _)).symm

/-! ## Invalidation -/

/-- C4 as stated fails: on a file system that refuses the removal, after
`sshClearAuthenticateCache` for the configured scenario endpoint and `download` the cache
file that `sshAuthenticate` reads is still there with its old (empty) content, and the next
`sshAuthenticate` for the pair is served from it and runs no command. -/
theorem sshClearAuthenticateCache_refused_keeps_file :
    scenarioEndpoint.SshUserAndHost ≠ "" ∧
      (refusingEnv successProc).ConfigEndpoint = scenarioEndpoint ∧
      (sshClearAuthenticateCache (refusingEnv successProc) (cachedWorld "")
        "download").effects =
        [Effect.remove (cachePath (refusingEnv successProc) scenarioEndpoint "download")] ∧
      (sshClearAuthenticateCache (refusingEnv successProc) (cachedWorld "")
        "download").files (cachePath (refusingEnv successProc) scenarioEndpoint "download") =
        some "" ∧
      (sshAuthenticate (refusingEnv successProc)
        (sshClearAuthenticateCache (refusingEnv successProc) (cachedWorld "") "download")
        scenarioEndpoint "download" "abc").2.effects =
        [Effect.remove ".git/lfs/ssh-cache-git@example.com-download",
         Effect.readFile ".git/lfs/ssh-cache-git@example.com-download"] := by
  decide

/-- C4, amended: for an endpoint with a non-empty SSH user-and-host that is the configured
endpoint of `sshClearAuthenticateCache`, and every operation: the file the call asks the
operating system to remove is exactly the cache file that `sshAuthenticate` reads and
writes for that endpoint and operation; when the operating system does not refuse the
removal, the file is absent afterwards, and the next `sshAuthenticate` for the pair takes
the cache-miss path and runs the remote command again. -/
theorem sshClearAuthenticateCache_same_key (env : Env) (w : World) (endpoint : Endpoint)
    (operation oid : String) (hhost : endpoint.SshUserAndHost ≠ "")
    (hconfig : env.ConfigEndpoint.SshUserAndHost = endpoint.SshUserAndHost) :
    (sshClearAuthenticateCache env w operation).effects =
        w.effects ++ [Effect.remove (cachePath env endpoint operation)] ∧
      (∀ path, path ≠ cachePath env endpoint operation →
        (sshClearAuthenticateCache env w operation).files path = w.files path) ∧
      (w.files (cachePath env endpoint operation) = none ∨
          env.removeErr (cachePath env endpoint operation) = none →
        (sshClearAuthenticateCache env w operation).files (cachePath env endpoint operation)
          = none ∧
        (ReadFile (sshClearAuthenticateCache env w operation)
          (cachePath env endpoint operation)).1.2 ≠ none ∧
        (sshAuthenticate env (sshClearAuthenticateCache env w operation) endpoint operation
          oid).2.effects =
          (sshClearAuthenticateCache env w operation).effects ++
            [Effect.readFile (cachePath env endpoint operation),
             Effect.trace (traceMessage endpoint operation oid),
             Effect.exec (if env.Getenv "GIT_SSH" = "" then "ssh" else env.Getenv "GIT_SSH")
               ((sshGetExeAndArgs env endpoint).2 ++
                 ["git-lfs-authenticate", endpoint.SshPath, operation, oid]),
             Effect.mkdirAll (Join [env.LocalGitDir, "lfs"]) 0o777,
             Effect.writeFile (cachePath env endpoint operation)
               (remoteCommand env endpoint operation oid).stdout 0o622]) := by
  have hfx : (sshClearAuthenticateCache env w operation).effects =
      w.effects ++ [Effect.remove (cachePath env endpoint operation)] := by
    simp only [sshClearAuthenticateCache, hconfig, clear_path_eq_cachePath, Remove]
    cases w.files (cachePath env endpoint operation) with
    | none => rfl
    | some c => cases env.removeErr (cachePath env endpoint operation) <;> rfl
  have hframe : ∀ path, path ≠ cachePath env endpoint operation →
      (sshClearAuthenticateCache env w operation).files path = w.files path := by
    intro path hne
    simp only [sshClearAuthenticateCache, hconfig, clear_path_eq_cachePath, Remove]
    cases w.files (cachePath env endpoint operation) with
    | none => rfl
    | some c =>
      cases env.removeErr (cachePath env endpoint operation) with
      | some e => rfl
      | none => simp [Function.update_noteq hne]
  refine ⟨hfx, hframe, ?_⟩
  intro hremove
  have hgone : (sshClearAuthenticateCache env w operation).files
      (cachePath env endpoint operation) = none := by
    simp only [sshClearAuthenticateCache, hconfig, clear_path_eq_cachePath, Remove]
    cases h : w.files (cachePath env endpoint operation) with
    | none => simpa using h
    | some c =>
      rcases hremove with h0 | h0
      · rw [h] at h0; cases h0
      · simp [h0]
  refine ⟨hgone, (readFile_miss_iff _ _).mpr hgone, ?_⟩
  rw [sshAuthenticate_miss_eq env _ endpoint operation oid hhost hgone]
  have hexe : (sshGetExeAndArgs env endpoint).1 =
      (if env.Getenv "GIT_SSH" = "" then "ssh" else env.Getenv "GIT_SSH") := by
    by_cases hg : env.Getenv "GIT_SSH" = ""
    · simp [sshGetExeAndArgs, length_beq_zero_false hhost, hg]
    · simp [sshGetExeAndArgs, length_beq_zero_false hhost, hg]
  simp only [missWorld, commandArgs, hexe]

theorem sshClearAuthenticateCache_same_key_witness :
    scenarioEndpoint.SshUserAndHost ≠ "" ∧
      (scenarioEnv "" successProc).ConfigEndpoint.SshUserAndHost =
        scenarioEndpoint.SshUserAndHost ∧
      (scenarioEnv "" successProc).removeErr
        (cachePath (scenarioEnv "" successProc) scenarioEndpoint "download") = none ∧
      (cachedWorld "stale").files ".git/lfs/ssh-cache-git@example.com-download" = some "stale" ∧
      (sshClearAuthenticateCache (scenarioEnv "" successProc) (cachedWorld "stale")
        "download").files (cachePath (scenarioEnv "" successProc) scenarioEndpoint "download")
        = none ∧
      (sshAuthenticate (scenarioEnv "" successProc)
        (sshClearAuthenticateCache (scenarioEnv "" successProc) (cachedWorld "stale")
          "download") scenarioEndpoint "download" "abc").2.effects =
        [Effect.remove ".git/lfs/ssh-cache-git@example.com-download",
         Effect.readFile ".git/lfs/ssh-cache-git@example.com-download",
         Effect.trace "ssh: git@example.com git-lfs-authenticate repo.git download abc",
         Effect.exec "ssh" ["git@example.com", "git-lfs-authenticate", "repo.git", "download",
           "abc"],
         Effect.mkdirAll ".git/lfs" 0o777,
         Effect.writeFile ".git/lfs/ssh-cache-git@example.com-download" scenarioStdout 0o622] :=
  ⟨by decide, rfl, rfl, by decide,
    ((sshClearAuthenticateCache_same_key (scenarioEnv "" successProc) (cachedWorld "stale")
      scenarioEndpoint "download" "abc" (by decide) rfl).2.2 (Or.inr rfl)).1,
    ((sshClearAuthenticateCache_same_key (scenarioEnv "" successProc) (cachedWorld "stale")
      scenarioEndpoint "download" "abc" (by decide) rfl).2.2 (Or.inr rfl)).2.2.trans
      (by decide)⟩

end Lfs
